import Mathlib

/-!
Verification of the invoice numbering and lifecycle subsystem of a
multi-tenant invoicing backend (src/backend/server.py).

The document store is modelled as lists of records in natural order:
`find_one` is first match, `update_one` modifies the first match,
`delete_one` removes the first match, `insert_one` appends.  Monetary
values (Python floats) are modelled as rationals; no claim depends on
float rounding.  `uuid.uuid4()` and `datetime.now()` are modelled by a
fresh-value supply `fresh : Nat` carried in the database state, so ids
and timestamps are opaque but distinct strings.
-/

/-- Decimal digits, least significant first, by structural recursion on
a fuel argument so that terms reduce in the kernel. -/
def digitsAux : Nat → Nat → List Nat
  | 0, _ => []
  | fuel + 1, n => if n = 0 then [] else n % 10 :: digitsAux fuel (n / 10)

/-- Decimal digits of `n`, least significant first (`[]` for 0). -/
def decDigits (n : Nat) : List Nat := digitsAux n n

/-- Python's `f"{n:04d}"` digit characters for a natural number: decimal
digits, most significant first (empty for 0). -/
def digitsChars (n : Nat) : List Char :=
  ((decDigits n).reverse).map Nat.digitChar

/-- Zero-pad the decimal rendering of `n` on the left to total width `w`. -/
def natPadChars (w n : Nat) : List Char :=
  List.replicate (w - (digitsChars n).length) '0' ++ digitsChars n

/-- Python's `f"{i:04d}"` for an arbitrary integer: total field width 4,
the sign counted in the width, widening without truncation beyond 4
digits. -/
def intPad4 (i : Int) : String :=
  if i < 0 then String.mk ('-' :: natPadChars 3 i.natAbs)
  else String.mk (natPadChars 4 i.toNat)

/-- A line item of an invoice (`InvoiceItem` in server.py). -/
structure InvoiceItem where
  description : String
  quantity : Rat
  rate : Rat
  amount : Rat
deriving DecidableEq, Repr

/-- The payload of invoice creation and update (`InvoiceCreate` in
server.py): every Invoice field except `id`, `invoice_number`,
`created_at` and `user_id`. -/
structure InvoiceCreate where
  client_id : String
  invoice_date : String
  due_date : String
  items : List InvoiceItem
  subtotal : Rat
  cgst : Rat
  sgst : Rat
  igst : Rat
  total : Rat
  status : String := "pending"
  invoice_type : String := "invoice"
  is_recurring : Bool := false
  notes : Option String := none
deriving DecidableEq, Repr

/-- A stored invoice record (`Invoice` in server.py); `created_at` is
kept in its serialized textual form. -/
structure Invoice where
  id : String
  invoice_number : String
  client_id : String
  invoice_date : String
  due_date : String
  items : List InvoiceItem
  subtotal : Rat
  cgst : Rat
  sgst : Rat
  igst : Rat
  total : Rat
  status : String
  invoice_type : String
  is_recurring : Bool
  notes : Option String
  created_at : String
  user_id : String
deriving DecidableEq, Repr

/-- A stored expense record (`Expense` in server.py). -/
structure Expense where
  id : String
  date : String
  description : String
  amount : Rat
  category : String
  created_at : String
  user_id : String
deriving DecidableEq, Repr

/-- A stored client record (only the fields the core reads). -/
structure Client where
  id : String
  user_id : String
deriving DecidableEq, Repr

/-- The per-tenant settings record (`Settings` in server.py). -/
structure Settings where
  id : String
  user_id : String
  invoice_prefix : String := "INV"
  invoice_counter : Int := 1
  company_name : String := "IMAGICITY"
  company_gstin : String := "20JVPPK2424H1ZM"
  company_address : String := "Kolghatti"
  bank_name : String := "Federal Bank"
  account_number : String := "25060200000912"
  ifsc_code : String := "FDRL0002506"
  upi_id : String := "biz"
deriving DecidableEq, Repr

/-- Partial settings payload accepted by `PUT /settings`: the raw dict
body that `update_one` `$set`s verbatim (server.py:903-910).  Every
Settings field may appear, *including* `id` and `user_id` — the endpoint
filters nothing, so a payload carrying `user_id` rewrites the record's
tenant.  `none` means the key is absent from the dict. -/
structure SettingsUpdate where
  id : Option String := none
  user_id : Option String := none
  invoice_prefix : Option String := none
  invoice_counter : Option Int := none
  company_name : Option String := none
  company_gstin : Option String := none
  company_address : Option String := none
  bank_name : Option String := none
  account_number : Option String := none
  ifsc_code : Option String := none
  upi_id : Option String := none
deriving DecidableEq, Repr

/-- The document database state.  `fresh` supplies the next generated
id / timestamp. -/
structure DB where
  invoices : List Invoice := []
  settings : List Settings := []
  expenses : List Expense := []
  clients : List Client := []
  fresh : Nat := 0
deriving DecidableEq, Repr

/-- Errors surfaced by the API: `notFound` is HTTP 404 with its detail
message; `internalError` models an uncaught Python exception (HTTP 500),
such as subscripting `None`. -/
inductive ApiError where
  | notFound (detail : String)
  | internalError
deriving DecidableEq, Repr

/-- Modify the first element satisfying `q` (Mongo `update_one`). -/
def updateFirst (q : α → Bool) (f : α → α) : List α → List α
  | [] => []
  | x :: xs => if q x then f x :: xs else x :: updateFirst q f xs

/-- Remove the first element satisfying `q`; `none` when nothing matched
(Mongo `delete_one` with `deleted_count == 0`). -/
def removeFirst (q : α → Bool) : List α → Option (List α)
  | [] => none
  | x :: xs => if q x then some xs else (removeFirst q xs).map (x :: ·)

/-- Generated id string (models `uuid.uuid4()`). -/
def genId (n : Nat) : String := "uuid-" ++ toString n

/-- Generated timestamp string (models `datetime.now().isoformat()`). -/
def genTs (n : Nat) : String := "ts-" ++ toString n

/-- `db.settings.find_one({"user_id": user_id})`. -/
def lookupSettings (db : DB) (u : String) : Option Settings :=
  db.settings.find? (fun s => s.user_id == u)

/-- `db.invoices.find_one({"id": iid, "user_id": u})`. -/
def findInvoice (db : DB) (u iid : String) : Option Invoice :=
  db.invoices.find? (fun i => i.id == iid && i.user_id == u)

/-- `db.invoices.find_one({"id": iid})` (the tenant-less re-read). -/
def findById (db : DB) (iid : String) : Option Invoice :=
  db.invoices.find? (fun i => i.id == iid)

/-- `db.invoices.find_one({"id": iid, "user_id": u, "invoice_type": "quotation"})`. -/
def findQuotation (db : DB) (u iid : String) : Option Invoice :=
  db.invoices.find?
    (fun i => i.id == iid && i.user_id == u && i.invoice_type == "quotation")

/-- A fresh default settings record for tenant `u` (pydantic defaults). -/
def defaultSettings (u : String) (n : Nat) : Settings :=
  { id := genId n, user_id := u }

/-- The tenant's current counter as the numbering code would read it
(1, the pydantic default, when no record exists yet). -/
def counterOf (db : DB) (u : String) : Int :=
  match lookupSettings db u with
  | some s => s.invoice_counter
  | none => 1

/-- The tenant's current number prefix as the numbering code would read
it ("INV", the pydantic default, when no record exists yet). -/
def prefixOf (db : DB) (u : String) : String :=
  match lookupSettings db u with
  | some s => Settings.invoice_prefix s
  | none => "INV"

/-- The invoice number minted from a settings document:
`f"{settings_doc['invoice_prefix']}-{settings_doc['invoice_counter']:04d}"`. -/
def mintNumber (s : Settings) : String :=
  Settings.invoice_prefix s ++ "-" ++ intPad4 s.invoice_counter

/-- Bump `invoice_counter` of the first settings record of tenant `u`
(Mongo `update_one({"user_id": u}, {"$inc": {"invoice_counter": 1}})`). -/
def incSettings (u : String) (l : List Settings) : List Settings :=
  updateFirst (fun s => s.user_id == u)
    (fun s => { s with invoice_counter := s.invoice_counter + 1 }) l

/-- The database writes `create_invoice` issues, in program order. -/
inductive DbWrite where
  | insertSettings (s : Settings)
  | insertInvoice (inv : Invoice)
  | incCounter (u : String)
deriving DecidableEq, Repr

/-- Apply one write to the store. -/
def applyWrite (db : DB) : DbWrite → DB
  | .insertSettings s => { db with settings := db.settings ++ [s] }
  | .insertInvoice inv => { db with invoices := db.invoices ++ [inv] }
  | .incCounter u => { db with settings := incSettings u db.settings }

/-- Apply a list of writes in order. -/
def applyWrites (db : DB) (ws : List DbWrite) : DB :=
  ws.foldl applyWrite db

/-- The settings document `create_invoice` reads (get-or-create): the
document, the writes issued to obtain it, and the fresh-supply position
afterwards. -/
def settingsForCreate (db : DB) (u : String) : Settings × List DbWrite × Nat :=
  match lookupSettings db u with
  | some s => (s, [], db.fresh)
  | none =>
    let s := defaultSettings u db.fresh
    (s, [DbWrite.insertSettings s], db.fresh + 1)

/-- The invoice record `create_invoice` builds from the payload. -/
def buildInvoice (d : InvoiceCreate) (num u : String) (n : Nat) : Invoice :=
  { id := genId n
    invoice_number := num
    client_id := d.client_id
    invoice_date := d.invoice_date
    due_date := d.due_date
    items := d.items
    subtotal := d.subtotal
    cgst := d.cgst
    sgst := d.sgst
    igst := d.igst
    total := d.total
    status := d.status
    invoice_type := d.invoice_type
    is_recurring := d.is_recurring
    notes := d.notes
    created_at := genTs n
    user_id := u }

/-- The full write trace of `POST /invoices` in program order: possibly
a lazy default-settings insert, then the invoice insert, then the
counter increment — the increment comes last, after persistence. -/
def createInvoiceWrites (db : DB) (u : String) (d : InvoiceCreate) : List DbWrite :=
  let (sdoc, ws, n) := settingsForCreate db u
  ws ++ [DbWrite.insertInvoice (buildInvoice d (mintNumber sdoc) u n),
         DbWrite.incCounter u]

/-- `POST /invoices` (`create_invoice` in server.py): returns the new
invoice and the updated store.  Cannot fail. -/
def create_invoice (db : DB) (u : String) (d : InvoiceCreate) : Invoice × DB :=
  let (sdoc, _, n) := settingsForCreate db u
  let inv := buildInvoice d (mintNumber sdoc) u n
  (inv, { applyWrites db (createInvoiceWrites db u d) with fresh := n + 1 })

/-- `GET /invoices` (`get_invoices`): the tenant's invoices, truncated
by `.to_list(1000)`. -/
def get_invoices (db : DB) (u : String) : List Invoice :=
  (db.invoices.filter (fun i => i.user_id == u)).take 1000

/-- `GET /expenses` (`get_expenses`): the tenant's expenses, truncated
by `.to_list(1000)`. -/
def get_expenses (db : DB) (u : String) : List Expense :=
  (db.expenses.filter (fun e => e.user_id == u)).take 1000

/-- `GET /invoices/{id}` (`get_invoice`). -/
def get_invoice (db : DB) (u iid : String) : Except ApiError Invoice :=
  match findInvoice db u iid with
  | none => .error (.notFound "Invoice not found")
  | some i => .ok i

/-- Overwrite the payload-carried fields of a stored invoice
(`update_one(..., {"$set": invoice_data.model_dump()})`). -/
def applyInvoicePayload (d : InvoiceCreate) (i : Invoice) : Invoice :=
  { i with
    client_id := d.client_id
    invoice_date := d.invoice_date
    due_date := d.due_date
    items := d.items
    subtotal := d.subtotal
    cgst := d.cgst
    sgst := d.sgst
    igst := d.igst
    total := d.total
    status := d.status
    invoice_type := d.invoice_type
    is_recurring := d.is_recurring
    notes := d.notes }

/-- `PUT /invoices/{id}` (`update_invoice`): find by (id, tenant), `$set`
the payload fields on the first (id, tenant) match, re-read by id only
(line 399 drops the tenant filter), return the re-read record. -/
def update_invoice (db : DB) (u iid : String) (d : InvoiceCreate) :
    Except ApiError Invoice × DB :=
  match findInvoice db u iid with
  | none => (.error (.notFound "Invoice not found"), db)
  | some _ =>
    let l₁ := updateFirst (fun i => i.id == iid && i.user_id == u)
      (applyInvoicePayload d) db.invoices
    let db₁ := { db with invoices := l₁ }
    match findById db₁ iid with
    | none => (.error .internalError, db₁)
    | some r => (.ok r, db₁)

/-- `DELETE /invoices/{id}` (`delete_invoice`). -/
def delete_invoice (db : DB) (u iid : String) : Except ApiError Unit × DB :=
  match removeFirst (fun i => i.id == iid && i.user_id == u) db.invoices with
  | none => (.error (.notFound "Invoice not found"), db)
  | some l => (.ok (), { db with invoices := l })

/-- `POST /invoices/{id}/convert-to-invoice`
(`convert_quotation_to_invoice`): find the tenant's quotation, read the
settings record without get-or-create (subscripting `None` when it is
missing is an uncaught exception), `$set` the new type and number on the
first record matching the id alone (line 425 drops the tenant filter),
increment the counter, re-read by id only. -/
def convert_quotation_to_invoice (db : DB) (u iid : String) :
    Except ApiError Invoice × DB :=
  match findQuotation db u iid with
  | none => (.error (.notFound "Quotation not found"), db)
  | some _ =>
    match lookupSettings db u with
    | none => (.error .internalError, db)
    | some sdoc =>
      let num := mintNumber sdoc
      let l₁ := updateFirst (fun i => i.id == iid)
        (fun i => { i with invoice_type := "invoice", invoice_number := num })
        db.invoices
      let db₁ := { db with invoices := l₁ }
      let db₂ := { db₁ with settings := incSettings u db₁.settings }
      match findById db₂ iid with
      | none => (.error .internalError, db₂)
      | some r => (.ok r, db₂)

/-- `GET /settings` (`get_settings`): get-or-create with pydantic
defaults. -/
def get_settings (db : DB) (u : String) : Settings × DB :=
  match lookupSettings db u with
  | some s => (s, db)
  | none =>
    let s := defaultSettings u db.fresh
    (s, { db with settings := db.settings ++ [s], fresh := db.fresh + 1 })

/-- Apply a `$set` payload to a settings document: every present key is
written verbatim, `id` and `user_id` included. -/
def applySettingsPayload (p : SettingsUpdate) (s : Settings) : Settings :=
  { s with
    id := p.id.getD s.id
    user_id := p.user_id.getD s.user_id
    invoice_prefix := p.invoice_prefix.getD (Settings.invoice_prefix s)
    invoice_counter := p.invoice_counter.getD s.invoice_counter
    company_name := p.company_name.getD s.company_name
    company_gstin := p.company_gstin.getD s.company_gstin
    company_address := p.company_address.getD s.company_address
    bank_name := p.bank_name.getD s.bank_name
    account_number := p.account_number.getD s.account_number
    ifsc_code := p.ifsc_code.getD s.ifsc_code
    upi_id := p.upi_id.getD s.upi_id }

/-- `PUT /settings` (`update_settings`): `update_one({"user_id": u},
{"$set": payload}, upsert=True)` — `$set` the payload verbatim on the
tenant's first record (a payload key `user_id` moves the record to
another tenant); on a miss Mongo builds the upsert document from the
filter equality (`user_id := u`) and then applies `$set`.  Fields the
payload leaves absent are modelled with the pydantic defaults that
`Settings(**doc)` fills in on the read paths; the raw Mongo document
would simply lack them. -/
def update_settings (db : DB) (u : String) (p : SettingsUpdate) : DB :=
  match lookupSettings db u with
  | some _ =>
    let l₁ := updateFirst (fun s => s.user_id == u) (applySettingsPayload p) db.settings
    { db with settings := l₁ }
  | none =>
    let s := applySettingsPayload p (defaultSettings u db.fresh)
    { db with settings := db.settings ++ [s], fresh := db.fresh + 1 }

/-- The payload of `GET /dashboard/stats`. -/
structure DashboardStats where
  total_revenue : Rat
  pending_amount : Rat
  overdue_amount : Rat
  total_expenses : Rat
  client_count : Nat
  invoice_count : Nat
deriving DecidableEq, Repr

/-- `GET /dashboard/stats` (`get_dashboard_stats`): sums over the
tenant's invoices and expenses, both truncated by `.to_list(1000)`;
`client_count` via `count_documents` (no truncation). -/
def get_dashboard_stats (db : DB) (u : String) : DashboardStats :=
  let invoices := (db.invoices.filter (fun i => i.user_id == u)).take 1000
  let expenses := (db.expenses.filter (fun e => e.user_id == u)).take 1000
  { total_revenue := ((invoices.filter (fun i => i.status == "paid")).map Invoice.total).sum
    pending_amount := ((invoices.filter (fun i => i.status == "pending")).map Invoice.total).sum
    overdue_amount := ((invoices.filter (fun i => i.status == "overdue")).map Invoice.total).sum
    total_expenses := (expenses.map Expense.amount).sum
    client_count := (db.clients.filter (fun c => c.user_id == u)).length
    invoice_count := invoices.length }

/-- One exposed state-changing operation of the invoice subsystem. -/
inductive Op where
  | create (u : String) (d : InvoiceCreate)
  | update (u iid : String) (d : InvoiceCreate)
  | delete (u iid : String)
  | convert (u iid : String)
  | getSettings (u : String)
  | updateSettings (u : String) (p : SettingsUpdate)
deriving DecidableEq, Repr

/-- The state transition of one exposed operation. -/
def applyOp (db : DB) : Op → DB
  | .create u d => (create_invoice db u d).2
  | .update u iid d => (update_invoice db u iid d).2
  | .delete u iid => (delete_invoice db u iid).2
  | .convert u iid => (convert_quotation_to_invoice db u iid).2
  | .getSettings u => (get_settings db u).2
  | .updateSettings u p => update_settings db u p

/-- Run a sequence of invoice creations, recording each creator tenant
with the invoice it received. -/
def runCreates : DB → List (String × InvoiceCreate) → List (String × Invoice)
  | _, [] => []
  | db, (u, d) :: evs =>
    (u, (create_invoice db u d).1) :: runCreates (create_invoice db u d).2 evs

/-- The invoice numbers tenant `t` received, in creation order, along a
sequence of creations (possibly interleaved with other tenants'). -/
def tenantNumbers (db : DB) (evs : List (String × InvoiceCreate)) (t : String) :
    List String :=
  ((runCreates db evs).filter (fun x => x.1 == t)).map
    (fun x => Invoice.invoice_number x.2)

/-! ### Decoding zero-padded decimal strings -/

/-- Numeric value of a digit character. -/
def charVal (c : Char) : Nat := c.toNat - 48

/-- Decode a most-significant-first digit-character list. -/
def decodeChars (l : List Char) : Nat :=
  Nat.ofDigits 10 ((l.map charVal).reverse)

theorem charVal_digitChar : ∀ d < 10, charVal (Nat.digitChar d) = d := by decide

theorem digitChar_ne_dash : ∀ d < 10, Nat.digitChar d ≠ '-' := by decide

theorem digitsAux_eq (fuel n : Nat) (h : n ≤ fuel) :
    digitsAux fuel n = Nat.digits 10 n := by
  induction fuel generalizing n with
  | zero =>
    have hn : n = 0 := Nat.le_zero.mp h
    subst hn
    simp [digitsAux]
  | succ fuel ih =>
    by_cases hn : n = 0
    · subst hn
      simp [digitsAux]
    · rw [digitsAux, if_neg hn,
        Nat.digits_def' (by norm_num : 1 < 10) (Nat.pos_of_ne_zero hn),
        ih (n / 10) (by omega)]

theorem decDigits_eq (n : Nat) : decDigits n = Nat.digits 10 n :=
  digitsAux_eq n n le_rfl

theorem map_charVal_digitsChars (n : Nat) :
    (digitsChars n).map charVal = (Nat.digits 10 n).reverse := by
  unfold digitsChars
  rw [decDigits_eq, List.map_map]
  have h : ∀ d ∈ (Nat.digits 10 n).reverse, (charVal ∘ Nat.digitChar) d = id d := by
    intro d hd
    have hlt : d < 10 :=
      Nat.digits_lt_base (by norm_num) (List.mem_reverse.mp hd)
    simpa using charVal_digitChar d hlt
  rw [List.map_congr_left h, List.map_id]

theorem ofDigits_replicate_zero (k : Nat) :
    Nat.ofDigits 10 (List.replicate k 0) = 0 := by
  induction k with
  | zero => simp
  | succ k ih => simp [List.replicate_succ, Nat.ofDigits_cons, ih]

theorem decodeChars_natPadChars (w n : Nat) : decodeChars (natPadChars w n) = n := by
  unfold decodeChars natPadChars
  rw [List.map_append, List.map_replicate, List.reverse_append,
    List.reverse_replicate, map_charVal_digitsChars, List.reverse_reverse]
  have h0 : charVal '0' = 0 := rfl
  rw [h0, Nat.ofDigits_append, Nat.ofDigits_digits, ofDigits_replicate_zero]
  simp

theorem natPadChars_inj {w a b : Nat} (h : natPadChars w a = natPadChars w b) :
    a = b := by
  have hd := congrArg decodeChars h
  rwa [decodeChars_natPadChars, decodeChars_natPadChars] at hd

theorem natPadChars_ne_dash {w n : Nat} {c : Char} (hc : c ∈ natPadChars w n) :
    c ≠ '-' := by
  unfold natPadChars at hc
  rcases List.mem_append.mp hc with h | h
  · have hc0 := List.eq_of_mem_replicate h
    subst hc0
    decide
  · unfold digitsChars at h
    rw [decDigits_eq] at h
    rcases List.mem_map.mp h with ⟨d, hd, rfl⟩
    exact digitChar_ne_dash d
      (Nat.digits_lt_base (by norm_num) (List.mem_reverse.mp hd))

theorem natPadChars_ne_nil (n : Nat) : natPadChars 4 n ≠ [] := by
  intro h
  have hl := congrArg List.length h
  rw [natPadChars, List.length_append, List.length_replicate, List.length_nil] at hl
  omega

theorem intPad4_inj {a b : Int} (h : intPad4 a = intPad4 b) : a = b := by
  unfold intPad4 at h
  by_cases ha : a < 0 <;> by_cases hb : b < 0
  · rw [if_pos ha, if_pos hb] at h
    injection h with h₁
    injection h₁ with h₂ h₃
    have := natPadChars_inj h₃
    omega
  · rw [if_pos ha, if_neg hb] at h
    injection h with h₁
    have hm : '-' ∈ natPadChars 4 b.toNat := by
      rw [← h₁]
      exact List.mem_cons_self _ _
    exact absurd rfl (natPadChars_ne_dash hm)
  · rw [if_neg ha, if_pos hb] at h
    injection h with h₁
    have hm : '-' ∈ natPadChars 4 a.toNat := by
      rw [h₁]
      exact List.mem_cons_self _ _
    exact absurd rfl (natPadChars_ne_dash hm)
  · rw [if_neg ha, if_neg hb] at h
    injection h with h₁
    have := natPadChars_inj h₁
    omega

theorem mintNumber_arg_inj {p : String} {a b : Int}
    (h : p ++ "-" ++ intPad4 a = p ++ "-" ++ intPad4 b) : a = b := by
  apply intPad4_inj
  have hd := congrArg String.data h
  rw [String.data_append, String.data_append, String.data_append,
    String.data_append] at hd
  exact String.ext (List.append_cancel_left hd)

/-! ### Generic facts about first-match list operations -/

theorem find?_updateFirst_same {α} (q : α → Bool) (f : α → α)
    (hf : ∀ x, q (f x) = q x) (l : List α) :
    List.find? q (updateFirst q f l) = Option.map f (List.find? q l) := by
  induction l with
  | nil => rfl
  | cons x xs ih =>
    by_cases h : q x = true
    · rw [updateFirst, if_pos h, List.find?_cons_of_pos _ ((hf x).trans h),
        List.find?_cons_of_pos _ h]
      rfl
    · rw [updateFirst, if_neg h, List.find?_cons_of_neg _ h,
        List.find?_cons_of_neg _ h, ih]

theorem find?_updateFirst_other {α} (p q : α → Bool) (f : α → α) (l : List α)
    (h : ∀ x ∈ l, q x = true → p x = false ∧ p (f x) = false) :
    List.find? p (updateFirst q f l) = List.find? p l := by
  induction l with
  | nil => rfl
  | cons x xs ih =>
    by_cases hq : q x = true
    · rcases h x (List.mem_cons_self x xs) hq with ⟨hpx, hpfx⟩
      rw [updateFirst, if_pos hq,
        List.find?_cons_of_neg _ (by simp [hpfx]),
        List.find?_cons_of_neg _ (by simp [hpx])]
    · rw [updateFirst, if_neg hq]
      by_cases hp : p x = true
      · rw [List.find?_cons_of_pos _ hp, List.find?_cons_of_pos _ hp]
      · rw [List.find?_cons_of_neg _ hp, List.find?_cons_of_neg _ hp]
        exact ih fun y hy => h y (List.mem_cons_of_mem x hy)

theorem countP_updateFirst {α} (p q : α → Bool) (f : α → α)
    (hf : ∀ x, p (f x) = p x) (l : List α) :
    List.countP p (updateFirst q f l) = List.countP p l := by
  induction l with
  | nil => rfl
  | cons x xs ih =>
    by_cases hq : q x = true
    · rw [updateFirst, if_pos hq, List.countP_cons, List.countP_cons, hf x]
    · rw [updateFirst, if_neg hq, List.countP_cons, List.countP_cons, ih]

theorem filter_updateFirst_other {α} (p q : α → Bool) (f : α → α) (l : List α)
    (h : ∀ x ∈ l, q x = true → p x = false ∧ p (f x) = false) :
    List.filter p (updateFirst q f l) = List.filter p l := by
  induction l with
  | nil => rfl
  | cons x xs ih =>
    by_cases hq : q x = true
    · rcases h x (List.mem_cons_self x xs) hq with ⟨hpx, hpfx⟩
      rw [updateFirst, if_pos hq, List.filter_cons, List.filter_cons, hpx, hpfx]
      simp
    · rw [updateFirst, if_neg hq, List.filter_cons, List.filter_cons,
        ih fun y hy => h y (List.mem_cons_of_mem x hy)]

theorem map_updateFirst {α β} (g : α → β) (q : α → Bool) (f : α → α)
    (hf : ∀ x, g (f x) = g x) (l : List α) :
    List.map g (updateFirst q f l) = List.map g l := by
  induction l with
  | nil => rfl
  | cons x xs ih =>
    by_cases hq : q x = true
    · rw [updateFirst, if_pos hq, List.map_cons, List.map_cons, hf x]
    · rw [updateFirst, if_neg hq, List.map_cons, List.map_cons, ih]

theorem mem_updateFirst {α} {q : α → Bool} {f : α → α} {l : List α} {x : α}
    (hx : x ∈ updateFirst q f l) :
    x ∈ l ∨ ∃ y ∈ l, q y = true ∧ x = f y := by
  induction l with
  | nil => simp [updateFirst] at hx
  | cons z zs ih =>
    by_cases hq : q z = true
    · rw [updateFirst, if_pos hq] at hx
      rcases List.mem_cons.mp hx with h | h
      · exact Or.inr ⟨z, List.mem_cons_self z zs, hq, h⟩
      · exact Or.inl (List.mem_cons_of_mem z h)
    · rw [updateFirst, if_neg hq] at hx
      rcases List.mem_cons.mp hx with h | h
      · exact Or.inl (h ▸ List.mem_cons_self z zs)
      · rcases ih h with h' | ⟨y, hy, hqy, hxy⟩
        · exact Or.inl (List.mem_cons_of_mem z h')
        · exact Or.inr ⟨y, List.mem_cons_of_mem z hy, hqy, hxy⟩

theorem filter_removeFirst {α} (p q : α → Bool) (l l' : List α)
    (hrem : removeFirst q l = some l')
    (h : ∀ x ∈ l, q x = true → p x = false) :
    List.filter p l' = List.filter p l := by
  induction l generalizing l' with
  | nil => simp [removeFirst] at hrem
  | cons x xs ih =>
    by_cases hq : q x = true
    · rw [removeFirst, if_pos hq, Option.some.injEq] at hrem
      subst hrem
      rw [List.filter_cons, h x (List.mem_cons_self x xs) hq]
      simp
    · rw [removeFirst, if_neg hq] at hrem
      cases hxs : removeFirst q xs with
      | none => rw [hxs] at hrem; simp at hrem
      | some ys =>
        rw [hxs] at hrem
        simp at hrem
        subst hrem
        rw [List.filter_cons, List.filter_cons,
          ih ys hxs fun y hy => h y (List.mem_cons_of_mem x hy)]

theorem find?_eq_of_mem_of_nodup_map {α β} [DecidableEq β] (g : α → β)
    (l : List α) (x : α) (hn : (l.map g).Nodup) (hx : x ∈ l) :
    List.find? (fun y => g y == g x) l = some x := by
  induction l with
  | nil => simp at hx
  | cons z zs ih =>
    by_cases hz : g z = g x
    · have hzx : z = x :=
        List.inj_on_of_nodup_map hn (List.mem_cons_self z zs) hx hz
      rw [List.find?_cons_of_pos _ (by simp [hz]), hzx]
    · have hx' : x ∈ zs := by
        rcases List.mem_cons.mp hx with h | h
        · exact absurd (h ▸ rfl) hz
        · exact h
      rw [List.find?_cons_of_neg _ (by simp [hz])]
      rw [List.map_cons] at hn
      exact ih (List.Nodup.of_cons hn) hx'

/-! ### Effect of invoice creation on the numbering state -/

theorem find?_incSettings_self (u : String) (l : List Settings) :
    List.find? (fun s => s.user_id == u) (incSettings u l) =
      Option.map (fun s => { s with invoice_counter := s.invoice_counter + 1 })
        (List.find? (fun s => s.user_id == u) l) := by
  unfold incSettings
  refine find?_updateFirst_same _ _ ?_ l
  intro x
  rfl

theorem find?_incSettings_other (u t : String) (hne : u ≠ t) (l : List Settings) :
    List.find? (fun s => s.user_id == t) (incSettings u l) =
      List.find? (fun s => s.user_id == t) l := by
  unfold incSettings
  apply find?_updateFirst_other
  intro x _ hq
  have hx : x.user_id = u := by simpa using hq
  constructor <;> simp [hx, hne]

theorem find?_settings_append_notmatch (t : String) (l : List Settings)
    (s : Settings) (hs : (s.user_id == t) = false) :
    List.find? (fun x => x.user_id == t) (l ++ [s]) =
      List.find? (fun x => x.user_id == t) l := by
  rw [List.find?_append]
  cases h : List.find? (fun x => x.user_id == t) l
  · simp [List.find?, hs]
  · rfl

theorem create_invoice_settings (db : DB) (u : String) (d : InvoiceCreate) :
    (create_invoice db u d).2.settings =
      (match lookupSettings db u with
      | some _ => incSettings u db.settings
      | none => incSettings u (db.settings ++ [defaultSettings u db.fresh])) := by
  cases h : lookupSettings db u <;>
    simp [create_invoice, createInvoiceWrites, settingsForCreate, applyWrites,
      applyWrite, h]

theorem create_invoice_invoices (db : DB) (u : String) (d : InvoiceCreate) :
    (create_invoice db u d).2.invoices =
      db.invoices ++ [(create_invoice db u d).1] := by
  cases h : lookupSettings db u <;>
    simp [create_invoice, createInvoiceWrites, settingsForCreate, applyWrites,
      applyWrite, h]

theorem create_invoice_number (db : DB) (u : String) (d : InvoiceCreate) :
    (create_invoice db u d).1.invoice_number =
      prefixOf db u ++ "-" ++ intPad4 (counterOf db u) := by
  cases h : lookupSettings db u with
  | some s =>
    simp [create_invoice, settingsForCreate, buildInvoice, mintNumber,
      prefixOf, counterOf, defaultSettings, h]
  | none =>
    simp only [create_invoice, settingsForCreate, buildInvoice, mintNumber,
      prefixOf, counterOf, defaultSettings, h]

theorem create_invoice_user (db : DB) (u : String) (d : InvoiceCreate) :
    (create_invoice db u d).1.user_id = u := by
  cases h : lookupSettings db u <;>
    simp [create_invoice, settingsForCreate, buildInvoice, h]

theorem lookupSettings_create_self (db : DB) (u : String) (d : InvoiceCreate) :
    lookupSettings (create_invoice db u d).2 u =
      some (match lookupSettings db u with
        | some s => { s with invoice_counter := s.invoice_counter + 1 }
        | none => { defaultSettings u db.fresh with invoice_counter := 2 }) := by
  unfold lookupSettings
  rw [create_invoice_settings]
  cases h : lookupSettings db u with
  | some s =>
    simp only
    rw [find?_incSettings_self]
    unfold lookupSettings at h
    rw [h]
    rfl
  | none =>
    simp only
    rw [find?_incSettings_self, List.find?_append]
    unfold lookupSettings at h
    rw [h]
    simp [defaultSettings]

theorem lookupSettings_create_other (db : DB) (u : String) (d : InvoiceCreate)
    (t : String) (hne : u ≠ t) :
    lookupSettings (create_invoice db u d).2 t = lookupSettings db t := by
  unfold lookupSettings
  rw [create_invoice_settings]
  cases h : lookupSettings db u with
  | some s =>
    simp only
    rw [find?_incSettings_other u t hne]
  | none =>
    simp only
    rw [find?_incSettings_other u t hne,
      find?_settings_append_notmatch t db.settings _ (by simp [defaultSettings, hne])]

theorem counterOf_create_self (db : DB) (u : String) (d : InvoiceCreate) :
    counterOf (create_invoice db u d).2 u = counterOf db u + 1 := by
  unfold counterOf
  rw [lookupSettings_create_self]
  cases h : lookupSettings db u <;> simp [h, defaultSettings]

theorem prefixOf_create_self (db : DB) (u : String) (d : InvoiceCreate) :
    prefixOf (create_invoice db u d).2 u = prefixOf db u := by
  unfold prefixOf
  rw [lookupSettings_create_self]
  cases h : lookupSettings db u <;> simp [h, defaultSettings]

theorem counterOf_create_other (db : DB) (u : String) (d : InvoiceCreate)
    (t : String) (hne : u ≠ t) :
    counterOf (create_invoice db u d).2 t = counterOf db t := by
  unfold counterOf
  rw [lookupSettings_create_other db u d t hne]

theorem prefixOf_create_other (db : DB) (u : String) (d : InvoiceCreate)
    (t : String) (hne : u ≠ t) :
    prefixOf (create_invoice db u d).2 t = prefixOf db t := by
  unfold prefixOf
  rw [lookupSettings_create_other db u d t hne]

/-! ### Sequences of creations -/

/-- The numbers a tenant with prefix `p` and counter `c` is dealt over
`m` consecutive allocations. -/
def expectedNumbers (p : String) (c : Int) (m : Nat) : List String :=
  (List.range m).map (fun k : Nat => p ++ "-" ++ intPad4 (c + (k : Int)))

theorem expectedNumbers_length (p : String) (c : Int) (m : Nat) :
    (expectedNumbers p c m).length = m := by
  simp [expectedNumbers]

theorem expectedNumbers_succ (p : String) (c : Int) (m : Nat) :
    expectedNumbers p c (m + 1) =
      (p ++ "-" ++ intPad4 c) :: expectedNumbers p (c + 1) m := by
  unfold expectedNumbers
  rw [List.range_succ_eq_map, List.map_cons, List.map_map]
  congr 1
  · norm_num
  · apply List.map_congr_left
    intro k _
    simp only [Function.comp]
    congr 2
    push_cast
    ring

theorem runCreates_cons (db : DB) (u : String) (d : InvoiceCreate)
    (evs : List (String × InvoiceCreate)) :
    runCreates db ((u, d) :: evs) =
      (u, (create_invoice db u d).1) :: runCreates (create_invoice db u d).2 evs := rfl

theorem tenantNumbers_cons (db : DB) (u : String) (d : InvoiceCreate)
    (evs : List (String × InvoiceCreate)) (t : String) :
    tenantNumbers db ((u, d) :: evs) t =
      (if u = t then [(create_invoice db u d).1.invoice_number] else []) ++
        tenantNumbers (create_invoice db u d).2 evs t := by
  unfold tenantNumbers
  rw [runCreates_cons]
  by_cases h : u = t
  · simp [h]
  · simp [h]

theorem tenantNumbers_eq (evs : List (String × InvoiceCreate)) :
    ∀ (db : DB) (t : String),
      tenantNumbers db evs t =
        expectedNumbers (prefixOf db t) (counterOf db t)
          (tenantNumbers db evs t).length := by
  induction evs with
  | nil => intro db t; rfl
  | cons ev evs ih =>
    intro db t
    obtain ⟨u, d⟩ := ev
    by_cases h : u = t
    · subst h
      rw [tenantNumbers_cons, if_pos rfl]
      simp only [List.singleton_append, List.length_cons]
      rw [expectedNumbers_succ]
      congr 1
      · rw [create_invoice_number]
      · rw [ih (create_invoice db u d).2 u, expectedNumbers_length,
          prefixOf_create_self, counterOf_create_self]
    · rw [tenantNumbers_cons, if_neg h, List.nil_append,
        ih (create_invoice db u d).2 t, expectedNumbers_length,
        prefixOf_create_other db u d t h, counterOf_create_other db u d t h]

theorem expectedNumbers_pairwise_ne (p : String) (c : Int) (m : Nat) :
    (expectedNumbers p c m).Pairwise (· ≠ ·) := by
  unfold expectedNumbers
  rw [List.pairwise_map]
  apply List.Pairwise.imp ?_ (List.pairwise_lt_range m)
  intro a b hab heq
  have hinj := mintNumber_arg_inj heq
  omega

/-- A minimal concrete creation payload used in concrete scenarios. -/
def samplePayload : InvoiceCreate :=
  { client_id := "c1", invoice_date := "2025-01-01", due_date := "2025-01-31",
    items := [], subtotal := 0, cgst := 0, sgst := 0, igst := 0, total := 0 }

/-- A store holding exactly the default settings record of tenant T. -/
def dbC1 : DB := { settings := [{ id := "uuid-0", user_id := "T" }] }

/-- C1: for a tenant whose settings record holds prefix `p` and counter
`c`, a successful `create_invoice` returns an invoice numbered
`p ++ "-" ++ c` zero-padded to 4 digits (`intPad4`, which widens without
truncation past 9999), and afterwards the tenant's `invoice_counter`
equals `c + 1`; the witness runs the fresh-defaults scenario
("INV-0001" then "INV-0002"). -/
theorem create_invoice_mints_and_advances (db : DB) (t : String)
    (d : InvoiceCreate) (s : Settings) (hs : lookupSettings db t = some s) :
    (create_invoice db t d).1.invoice_number =
      Settings.invoice_prefix s ++ "-" ++ intPad4 s.invoice_counter ∧
    counterOf (create_invoice db t d).2 t = s.invoice_counter + 1 := by
  constructor
  · rw [create_invoice_number]
    unfold prefixOf counterOf
    rw [hs]
  · rw [counterOf_create_self]
    unfold counterOf
    rw [hs]

/-- Witness for C1: tenant T with fresh default settings gets
"INV-0001" (counter moves to 2), then "INV-0002" (counter moves to 3). -/
theorem create_invoice_mints_and_advances_witness :
    (create_invoice dbC1 "T" samplePayload).1.invoice_number = "INV-0001" ∧
    counterOf (create_invoice dbC1 "T" samplePayload).2 "T" = 2 ∧
    (create_invoice (create_invoice dbC1 "T" samplePayload).2 "T"
        samplePayload).1.invoice_number = "INV-0002" ∧
    counterOf (create_invoice (create_invoice dbC1 "T" samplePayload).2 "T"
        samplePayload).2 "T" = 3 := by
  have h1 := create_invoice_mints_and_advances dbC1 "T" samplePayload
    { id := "uuid-0", user_id := "T" } (by decide)
  have h2 := create_invoice_mints_and_advances
    (create_invoice dbC1 "T" samplePayload).2 "T" samplePayload
    { id := "uuid-0", user_id := "T", invoice_counter := 2 } (by decide)
  refine ⟨?_, ?_, ?_, ?_⟩
  · rw [h1.1]; decide
  · rw [h1.2]; decide
  · rw [h2.1]; decide
  · rw [h2.2]; decide

/-- C2: along any sequence of successful creations, arbitrarily
interleaved with other tenants' creations, the numbers tenant `t`
receives are exactly its starting prefix paired with the counters
c, c+1, c+2, ... (advancing by exactly 1 per allocation for `t`,
unaffected by the interleaved events), and they are pairwise
distinct. -/
theorem create_sequence_numbers_distinct (db : DB)
    (evs : List (String × InvoiceCreate)) (t : String) :
    tenantNumbers db evs t =
      expectedNumbers (prefixOf db t) (counterOf db t)
        (tenantNumbers db evs t).length ∧
    (tenantNumbers db evs t).Pairwise (· ≠ ·) := by
  refine ⟨tenantNumbers_eq evs db t, ?_⟩
  rw [tenantNumbers_eq evs db t]
  exact expectedNumbers_pairwise_ne _ _ _

/-! ### Order of persistence and counter advancement (create_invoice) -/

/-- Counterexample to C3: in the concrete run for tenant T (settings
present, counter 1), the write trace of `create_invoice` is the invoice
insert followed by the counter increment; after applying the trace up to
and including the insert — i.e. at the moment persistence completes, and
a fortiori at any earlier failure point — the counter still reads 1, not
2.  So the counter is *not* advanced before the invoice is persisted,
and a persistence failure consumes no number. -/
theorem create_advance_before_persist_cex :
    createInvoiceWrites dbC1 "T" samplePayload =
      [DbWrite.insertInvoice (create_invoice dbC1 "T" samplePayload).1,
       DbWrite.incCounter "T"] ∧
    counterOf dbC1 "T" = 1 ∧
    counterOf (applyWrites dbC1
      (List.take 1 (createInvoiceWrites dbC1 "T" samplePayload))) "T" = 1 ∧
    (applyWrites dbC1
      (List.take 1 (createInvoiceWrites dbC1 "T" samplePayload))).invoices =
      [(create_invoice dbC1 "T" samplePayload).1] := by
  decide

/-- C3 (amended): `create_invoice` persists the invoice *before*
advancing the counter: its write trace ends with the increment, and in
the state just before that final write the invoice is already stored
while the tenant's counter is unchanged.  Hence a failure of the insert
leaves the counter unincremented (no number is consumed); the gap in the
code is the reverse one — a failure of the final increment leaves a
stored invoice with the counter un-advanced. -/
theorem create_invoice_persists_before_advancing (db : DB) (u : String)
    (d : InvoiceCreate) :
    ∃ ws₀ : List DbWrite,
      createInvoiceWrites db u d = ws₀ ++ [DbWrite.incCounter u] ∧
      (applyWrites db ws₀).invoices =
        db.invoices ++ [(create_invoice db u d).1] ∧
      counterOf (applyWrites db ws₀) u = counterOf db u := by
  cases h : lookupSettings db u with
  | some s =>
    refine ⟨[DbWrite.insertInvoice (create_invoice db u d).1], ?_, ?_, ?_⟩
    · simp [createInvoiceWrites, settingsForCreate, create_invoice, h]
    · simp [applyWrites, applyWrite]
    · simp [applyWrites, applyWrite, counterOf, lookupSettings]
  | none =>
    refine ⟨[DbWrite.insertSettings (defaultSettings u db.fresh),
             DbWrite.insertInvoice (create_invoice db u d).1], ?_, ?_, ?_⟩
    · simp [createInvoiceWrites, settingsForCreate, create_invoice, h]
    · simp [applyWrites, applyWrite]
    · simp only [applyWrites, List.foldl, applyWrite, counterOf, lookupSettings]
      unfold lookupSettings at h
      rw [List.find?_append, h]
      simp [defaultSettings]

/-! ### Splitting a list at the first match -/

theorem updateFirst_split {α} {q : α → Bool} {l : List α} {x : α}
    (h : List.find? q l = some x) (f : α → α) :
    ∃ l₁ l₂, l = l₁ ++ x :: l₂ ∧ (∀ y ∈ l₁, q y = false) ∧
      updateFirst q f l = l₁ ++ f x :: l₂ := by
  induction l with
  | nil => simp at h
  | cons z zs ih =>
    by_cases hz : q z = true
    · rw [List.find?_cons_of_pos _ hz, Option.some.injEq] at h
      subst h
      exact ⟨[], zs, rfl, by simp, by rw [updateFirst, if_pos hz, List.nil_append]⟩
    · rw [List.find?_cons_of_neg _ hz] at h
      obtain ⟨l₁, l₂, hl, hq1, hupd⟩ := ih h
      simp only [Bool.not_eq_true] at hz
      refine ⟨z :: l₁, l₂, by rw [List.cons_append, ← hl], ?_, ?_⟩
      · intro y hy
        rcases List.mem_cons.mp hy with hy' | hy'
        · rw [hy']; exact hz
        · exact hq1 y hy'
      · rw [updateFirst, if_neg (by simp [hz]), hupd, List.cons_append]

theorem id_ne_of_nodup_split {l l₁ l₂ : List Invoice} {x : Invoice}
    (hn : (l.map Invoice.id).Nodup) (hl : l = l₁ ++ x :: l₂) :
    ∀ y, (y ∈ l₁ ∨ y ∈ l₂) → y.id ≠ x.id := by
  subst hl
  rw [List.map_append, List.map_cons] at hn
  rw [List.nodup_append] at hn
  obtain ⟨hn1, hn2, hdisj⟩ := hn
  intro y hy heq
  rcases hy with hy | hy
  · exact hdisj (List.mem_map_of_mem Invoice.id hy)
      (by rw [heq]; exact List.mem_cons_self _ _)
  · rw [List.nodup_cons] at hn2
    exact hn2.1 (heq ▸ List.mem_map_of_mem Invoice.id hy)

/-! ### Conversion without a settings record (C9) -/

/-- A quotation record of tenant T used in concrete scenarios. -/
def quotationT : Invoice :=
  { id := "q1", invoice_number := "QUO-1", client_id := "c1",
    invoice_date := "2025-01-01", due_date := "2025-01-31", items := [],
    subtotal := 0, cgst := 0, sgst := 0, igst := 0, total := 0,
    status := "pending", invoice_type := "quotation", is_recurring := false,
    notes := none, created_at := "ts-q1", user_id := "T" }

/-- A store holding an eligible quotation of tenant T but no settings
record for T. -/
def dbC9 : DB := { invoices := [quotationT] }

/-- C9: when a tenant owns an eligible quotation but has no settings
record, `convert_quotation_to_invoice` reaches its success branch,
subscripts the missing settings document and dies with an internal
error — not `NotFound` — leaving the store (hence the quotation)
unchanged; `create_invoice`, by contrast, lazily creates the default
settings record in the same situation. -/
theorem convert_missing_settings_internal_error (db : DB) (u iid : String)
    (d : InvoiceCreate) (hq : (findQuotation db u iid).isSome)
    (hs : lookupSettings db u = none) :
    (convert_quotation_to_invoice db u iid).1 = .error .internalError ∧
    (convert_quotation_to_invoice db u iid).2 = db ∧
    (lookupSettings (create_invoice db u d).2 u).isSome := by
  obtain ⟨q, hq'⟩ := Option.isSome_iff_exists.mp hq
  refine ⟨?_, ?_, ?_⟩
  · simp [convert_quotation_to_invoice, hq', hs]
  · simp [convert_quotation_to_invoice, hq', hs]
  · rw [lookupSettings_create_self]
    simp

/-- Witness for C9 at a concrete store. -/
theorem convert_missing_settings_internal_error_witness :
    (convert_quotation_to_invoice dbC9 "T" "q1").1 = .error .internalError ∧
    (convert_quotation_to_invoice dbC9 "T" "q1").2 = dbC9 ∧
    (lookupSettings (create_invoice dbC9 "T" samplePayload).2 "T").isSome :=
  convert_missing_settings_internal_error dbC9 "T" "q1" samplePayload
    (by decide) (by decide)

/-! ### Characterizing a successful conversion -/

theorem convert_ok_characterization (db : DB) (u iid : String)
    (hids : (db.invoices.map Invoice.id).Nodup)
    {q : Invoice} (hq : findQuotation db u iid = some q)
    {sdoc : Settings} (hs : lookupSettings db u = some sdoc) :
    ∃ l₁ l₂,
      db.invoices = l₁ ++ q :: l₂ ∧
      (∀ y, (y ∈ l₁ ∨ y ∈ l₂) → y.id ≠ q.id) ∧
      (convert_quotation_to_invoice db u iid).1 =
        .ok { q with invoice_type := "invoice",
                     invoice_number := mintNumber sdoc } ∧
      (convert_quotation_to_invoice db u iid).2.invoices =
        l₁ ++ { q with invoice_type := "invoice",
                       invoice_number := mintNumber sdoc } :: l₂ ∧
      (convert_quotation_to_invoice db u iid).2.settings =
        incSettings u db.settings := by
  have hqmem : q ∈ db.invoices := List.mem_of_find?_eq_some hq
  have hqpred := List.find?_some hq
  simp only [Bool.and_eq_true, beq_iff_eq] at hqpred
  obtain ⟨⟨hqid, hquser⟩, hqtype⟩ := hqpred
  subst hqid
  have hfind : List.find? (fun i => i.id == q.id) db.invoices = some q :=
    find?_eq_of_mem_of_nodup_map Invoice.id db.invoices q hids hqmem
  obtain ⟨l₁, l₂, hsplit, hl₁, hupd⟩ := updateFirst_split hfind
    (fun i => { i with invoice_type := "invoice",
                       invoice_number := mintNumber sdoc })
  have hne := id_ne_of_nodup_split hids hsplit
  have hrefetch : List.find? (fun i => i.id == q.id)
      (l₁ ++ ({ q with invoice_type := "invoice",
                       invoice_number := mintNumber sdoc } : Invoice) :: l₂) =
      some { q with invoice_type := "invoice",
                    invoice_number := mintNumber sdoc } := by
    rw [List.find?_append]
    have h1 : List.find? (fun i => i.id == q.id) l₁ = none := by
      rw [List.find?_eq_none]
      intro y hy
      simp [hne y (Or.inl hy)]
    rw [h1, List.find?_cons_of_pos _ (by simp)]
    rfl
  refine ⟨l₁, l₂, hsplit, hne, ?_, ?_, ?_⟩
  · simp only [convert_quotation_to_invoice, hq, hs, findById, hupd, hrefetch]
  · simp only [convert_quotation_to_invoice, hq, hs, findById, hupd, hrefetch]
  · simp only [convert_quotation_to_invoice, hq, hs, findById, hupd, hrefetch]

theorem convert_eq_of_quotation_none (db : DB) (u iid : String)
    (h : findQuotation db u iid = none) :
    convert_quotation_to_invoice db u iid =
      (.error (.notFound "Quotation not found"), db) := by
  simp [convert_quotation_to_invoice, h]

/-- C4: conversion fails with `NotFound` iff the tenant has no record
with that id and `invoice_type = "quotation"`; on success it returns the
record with a fresh number minted from the tenant's counter and
`invoice_type = "invoice"`, preserving id, items and totals; and a
second conversion of the same id fails with `NotFound`. -/
theorem convert_to_invoice_spec (db : DB) (u iid : String)
    (hids : (db.invoices.map Invoice.id).Nodup) :
    ((convert_quotation_to_invoice db u iid).1 =
        .error (.notFound "Quotation not found") ↔
      findQuotation db u iid = none) ∧
    (∀ inv, (convert_quotation_to_invoice db u iid).1 = .ok inv →
      ∃ q, findQuotation db u iid = some q ∧
        inv.id = q.id ∧ inv.items = q.items ∧ inv.subtotal = q.subtotal ∧
        inv.cgst = q.cgst ∧ inv.sgst = q.sgst ∧ inv.igst = q.igst ∧
        inv.total = q.total ∧ inv.invoice_type = "invoice" ∧
        inv.invoice_number = prefixOf db u ++ "-" ++ intPad4 (counterOf db u)) ∧
    (∀ inv, (convert_quotation_to_invoice db u iid).1 = .ok inv →
      (convert_quotation_to_invoice
          (convert_quotation_to_invoice db u iid).2 u iid).1 =
        .error (.notFound "Quotation not found")) := by
  cases hq : findQuotation db u iid with
  | none =>
    rw [convert_eq_of_quotation_none db u iid hq]
    refine ⟨by simp, ?_, ?_⟩
    · intro inv hinv
      simp at hinv
    · intro inv hinv
      simp at hinv
  | some q =>
    cases hs : lookupSettings db u with
    | none =>
      have hconv : (convert_quotation_to_invoice db u iid).1 =
          .error .internalError := by
        simp [convert_quotation_to_invoice, hq, hs]
      refine ⟨?_, ?_, ?_⟩
      · rw [hconv]
        constructor
        · intro h
          simp at h
        · intro h
          simp at h
      · intro inv hinv
        rw [hconv] at hinv
        simp at hinv
      · intro inv hinv
        rw [hconv] at hinv
        simp at hinv
    | some sdoc =>
      obtain ⟨l₁, l₂, hsplit, hne, hres, hinvs, hsett⟩ :=
        convert_ok_characterization db u iid hids hq hs
      have hqpred := List.find?_some hq
      simp only [Bool.and_eq_true, beq_iff_eq] at hqpred
      obtain ⟨⟨hqid, hquser⟩, hqtype⟩ := hqpred
      refine ⟨by rw [hres]; constructor <;> (intro h; simp at h), ?_, ?_⟩
      · intro inv hinv
        rw [hres, Except.ok.injEq] at hinv
        subst hinv
        refine ⟨q, rfl, rfl, rfl, rfl, rfl, rfl, rfl, rfl, rfl, ?_⟩
        unfold mintNumber prefixOf counterOf
        rw [hs]
      · intro inv _
        have h2 : findQuotation (convert_quotation_to_invoice db u iid).2 u iid =
            none := by
          unfold findQuotation
          rw [hinvs, List.find?_eq_none]
          intro y hy
          rcases List.mem_append.mp hy with hy1 | hy2
          · intro hpred
            simp only [Bool.and_eq_true, beq_iff_eq] at hpred
            exact hne y (Or.inl hy1) (hpred.1.1.trans hqid.symm)
          · rcases List.mem_cons.mp hy2 with hy3 | hy3
            · subst hy3
              simp
            · intro hpred
              simp only [Bool.and_eq_true, beq_iff_eq] at hpred
              exact hne y (Or.inr hy3) (hpred.1.1.trans hqid.symm)
        rw [convert_eq_of_quotation_none _ u iid h2]

/-- A store with an eligible quotation of tenant T and T's default
settings record. -/
def dbC4 : DB :=
  { invoices := [quotationT], settings := [{ id := "uuid-s", user_id := "T" }] }

/-- Witness for C4 at a concrete store. -/
theorem convert_to_invoice_spec_witness :
    ((convert_quotation_to_invoice dbC4 "T" "q1").1 =
        .error (.notFound "Quotation not found") ↔
      findQuotation dbC4 "T" "q1" = none) ∧
    (∀ inv, (convert_quotation_to_invoice dbC4 "T" "q1").1 = .ok inv →
      ∃ q, findQuotation dbC4 "T" "q1" = some q ∧
        inv.id = q.id ∧ inv.items = q.items ∧ inv.subtotal = q.subtotal ∧
        inv.cgst = q.cgst ∧ inv.sgst = q.sgst ∧ inv.igst = q.igst ∧
        inv.total = q.total ∧ inv.invoice_type = "invoice" ∧
        inv.invoice_number =
          prefixOf dbC4 "T" ++ "-" ++ intPad4 (counterOf dbC4 "T")) ∧
    (∀ inv, (convert_quotation_to_invoice dbC4 "T" "q1").1 = .ok inv →
      (convert_quotation_to_invoice
          (convert_quotation_to_invoice dbC4 "T" "q1").2 "T" "q1").1 =
        .error (.notFound "Quotation not found")) :=
  convert_to_invoice_spec dbC4 "T" "q1" (by decide)

/-! ### Characterizing a successful update -/

theorem update_eq_of_none (db : DB) (u iid : String) (d : InvoiceCreate)
    (h : findInvoice db u iid = none) :
    update_invoice db u iid d = (.error (.notFound "Invoice not found"), db) := by
  simp [update_invoice, h]

theorem update_ok_characterization (db : DB) (u iid : String) (d : InvoiceCreate)
    (hids : (db.invoices.map Invoice.id).Nodup)
    {pre : Invoice} (hpre : findInvoice db u iid = some pre) :
    ∃ l₁ l₂,
      db.invoices = l₁ ++ pre :: l₂ ∧
      (∀ y, (y ∈ l₁ ∨ y ∈ l₂) → y.id ≠ pre.id) ∧
      (update_invoice db u iid d).1 = .ok (applyInvoicePayload d pre) ∧
      (update_invoice db u iid d).2.invoices =
        l₁ ++ applyInvoicePayload d pre :: l₂ ∧
      (update_invoice db u iid d).2.settings = db.settings ∧
      findById (update_invoice db u iid d).2 iid =
        some (applyInvoicePayload d pre) := by
  have hmem : pre ∈ db.invoices := List.mem_of_find?_eq_some hpre
  have hpred := List.find?_some hpre
  simp only [Bool.and_eq_true, beq_iff_eq] at hpred
  obtain ⟨hpid, hpuser⟩ := hpred
  have hpre' : List.find? (fun i => i.id == iid && i.user_id == u) db.invoices =
      some pre := hpre
  obtain ⟨l₁, l₂, hsplit, hl₁, hupd⟩ := updateFirst_split hpre'
    (applyInvoicePayload d)
  have hne := id_ne_of_nodup_split hids hsplit
  have hrefetch : List.find? (fun i => i.id == iid)
      (l₁ ++ applyInvoicePayload d pre :: l₂) =
      some (applyInvoicePayload d pre) := by
    rw [List.find?_append]
    have h1 : List.find? (fun i => i.id == iid) l₁ = none := by
      rw [List.find?_eq_none]
      intro y hy
      simp [show y.id ≠ iid from fun hcon => hne y (Or.inl hy) (hcon.trans hpid.symm)]
    rw [h1, List.find?_cons_of_pos _ (by simp [applyInvoicePayload, hpid])]
    rfl
  refine ⟨l₁, l₂, hsplit, hne, ?_, ?_, ?_, ?_⟩
  · simp only [update_invoice, hpre, findById, hupd, hrefetch]
  · simp only [update_invoice, hpre, findById, hupd, hrefetch]
  · simp only [update_invoice, hpre, findById, hupd, hrefetch]
  · simp only [update_invoice, hpre, findById, hupd, hrefetch]

/-- C7: `update_invoice` fails with `NotFound` iff the tenant has no
invoice with that id; on success the returned (and stored) record keeps
its pre-update `id`, `invoice_number`, `created_at` and `user_id`, and
every payload-carried field equals the submitted value. -/
theorem update_invoice_preserves_identity (db : DB) (u iid : String)
    (d : InvoiceCreate) (hids : (db.invoices.map Invoice.id).Nodup) :
    ((update_invoice db u iid d).1 = .error (.notFound "Invoice not found") ↔
      findInvoice db u iid = none) ∧
    (∀ r, (update_invoice db u iid d).1 = .ok r →
      ∃ pre, findInvoice db u iid = some pre ∧
        r.id = pre.id ∧ r.invoice_number = pre.invoice_number ∧
        r.created_at = pre.created_at ∧ r.user_id = pre.user_id ∧
        r.client_id = d.client_id ∧ r.invoice_date = d.invoice_date ∧
        r.due_date = d.due_date ∧ r.items = d.items ∧ r.subtotal = d.subtotal ∧
        r.cgst = d.cgst ∧ r.sgst = d.sgst ∧ r.igst = d.igst ∧
        r.total = d.total ∧ r.status = d.status ∧
        r.invoice_type = d.invoice_type ∧ r.is_recurring = d.is_recurring ∧
        r.notes = d.notes ∧
        findById (update_invoice db u iid d).2 iid = some r) := by
  cases hpre : findInvoice db u iid with
  | none =>
    rw [update_eq_of_none db u iid d hpre]
    refine ⟨by simp, ?_⟩
    intro r hr
    simp at hr
  | some pre =>
    obtain ⟨l₁, l₂, hsplit, hne, hres, hinvs, hsett, hfetch⟩ :=
      update_ok_characterization db u iid d hids hpre
    refine ⟨by rw [hres]; constructor <;> (intro h; simp at h), ?_⟩
    intro r hr
    rw [hres, Except.ok.injEq] at hr
    subst hr
    exact ⟨pre, rfl, rfl, rfl, rfl, rfl, rfl, rfl, rfl, rfl, rfl, rfl, rfl,
      rfl, rfl, rfl, rfl, rfl, rfl, hfetch⟩

/-- A payload distinct from `quotationT`'s fields in every
payload-carried slot, used to exercise updates. -/
def updatePayload : InvoiceCreate :=
  { client_id := "c2", invoice_date := "2025-02-01", due_date := "2025-02-28",
    items := [{ description := "w", quantity := 2, rate := 5, amount := 10 }],
    subtotal := 10, cgst := 1, sgst := 1, igst := 0, total := 12,
    status := "paid", invoice_type := "invoice", is_recurring := true,
    notes := some "n" }

/-- Witness for C7 at a concrete store. -/
theorem update_invoice_preserves_identity_witness :
    ((update_invoice dbC4 "T" "q1" updatePayload).1 =
        .error (.notFound "Invoice not found") ↔
      findInvoice dbC4 "T" "q1" = none) ∧
    (∀ r, (update_invoice dbC4 "T" "q1" updatePayload).1 = .ok r →
      ∃ pre, findInvoice dbC4 "T" "q1" = some pre ∧
        r.id = pre.id ∧ r.invoice_number = pre.invoice_number ∧
        r.created_at = pre.created_at ∧ r.user_id = pre.user_id ∧
        r.client_id = updatePayload.client_id ∧
        r.invoice_date = updatePayload.invoice_date ∧
        r.due_date = updatePayload.due_date ∧ r.items = updatePayload.items ∧
        r.subtotal = updatePayload.subtotal ∧ r.cgst = updatePayload.cgst ∧
        r.sgst = updatePayload.sgst ∧ r.igst = updatePayload.igst ∧
        r.total = updatePayload.total ∧ r.status = updatePayload.status ∧
        r.invoice_type = updatePayload.invoice_type ∧
        r.is_recurring = updatePayload.is_recurring ∧
        r.notes = updatePayload.notes ∧
        findById (update_invoice dbC4 "T" "q1" updatePayload).2 "q1" = some r) :=
  update_invoice_preserves_identity dbC4 "T" "q1" updatePayload (by decide)

/-! ### The invoice_type state machine (C5) -/

/-- An empty store. -/
def dbEmpty : DB := {}

/-- The sample payload with `invoice_type = "quotation"`. -/
def quotPayload : InvoiceCreate :=
  { samplePayload with invoice_type := "quotation" }

/-- Counterexample to C5: "invoice" is not terminal.  Starting from an
empty store, tenant T creates an invoice (type "invoice", stored id
"uuid-1"), then updates it with a payload carrying
`invoice_type = "quotation"`; the stored record's `invoice_type` is
"quotation" again. -/
theorem invoice_terminal_cex :
    (create_invoice dbEmpty "T" samplePayload).1.invoice_type = "invoice" ∧
    Option.map Invoice.invoice_type
      (findById (update_invoice (create_invoice dbEmpty "T" samplePayload).2
        "T" "uuid-1" quotPayload).2 "uuid-1") = some "quotation" := by
  decide

/-- C5 (amended): `convert_quotation_to_invoice` performs only the
transition quotation → invoice — it accepts only records whose
`invoice_type` is "quotation" and every record it returns has
`invoice_type = "invoice"` — but the state "invoice" is *not* terminal:
`update_invoice` overwrites `invoice_type` with the payload's value, so
an update whose payload carries `invoice_type = "quotation"` moves the
record back to "quotation". -/
theorem invoice_type_transitions (db : DB) (u iid : String) (d : InvoiceCreate)
    (hids : (db.invoices.map Invoice.id).Nodup) :
    (∀ q, findQuotation db u iid = some q → q.invoice_type = "quotation") ∧
    (∀ inv, (convert_quotation_to_invoice db u iid).1 = .ok inv →
      inv.invoice_type = "invoice") ∧
    (∀ r, (update_invoice db u iid d).1 = .ok r →
      r.invoice_type = d.invoice_type) := by
  refine ⟨?_, ?_, ?_⟩
  · intro q hq
    have hp := List.find?_some hq
    simp only [Bool.and_eq_true, beq_iff_eq] at hp
    exact hp.2
  · intro inv hinv
    cases hq : findQuotation db u iid with
    | none =>
      rw [convert_eq_of_quotation_none db u iid hq] at hinv
      simp at hinv
    | some q =>
      cases hs : lookupSettings db u with
      | none =>
        have herr : (convert_quotation_to_invoice db u iid).1 =
            .error .internalError := by
          simp [convert_quotation_to_invoice, hq, hs]
        rw [herr] at hinv
        simp at hinv
      | some sdoc =>
        obtain ⟨_, _, _, _, hres, _, _⟩ :=
          convert_ok_characterization db u iid hids hq hs
        rw [hres, Except.ok.injEq] at hinv
        subst hinv
        rfl
  · intro r hr
    cases hpre : findInvoice db u iid with
    | none =>
      rw [update_eq_of_none db u iid d hpre] at hr
      simp at hr
    | some pre =>
      obtain ⟨_, _, _, _, hres, _, _, _⟩ :=
        update_ok_characterization db u iid d hids hpre
      rw [hres, Except.ok.injEq] at hr
      subst hr
      rfl

/-- Witness for the amended C5 at a concrete store. -/
theorem invoice_type_transitions_witness :
    (∀ q, findQuotation dbC4 "T" "q1" = some q →
      q.invoice_type = "quotation") ∧
    (∀ inv, (convert_quotation_to_invoice dbC4 "T" "q1").1 = .ok inv →
      inv.invoice_type = "invoice") ∧
    (∀ r, (update_invoice dbC4 "T" "q1" quotPayload).1 = .ok r →
      r.invoice_type = quotPayload.invoice_type) :=
  invoice_type_transitions dbC4 "T" "q1" quotPayload (by decide)

/-! ### Settings uniqueness and counter monotonicity (C6) -/

/-- Number of settings records a tenant owns. -/
def settingsCount (db : DB) (t : String) : Nat :=
  db.settings.countP (fun s => s.user_id == t)

/-- At most one settings record per tenant. -/
def SettingsAtMostOne (db : DB) : Prop := ∀ t, settingsCount db t ≤ 1

/-- Whether an operation is the raw settings update (`PUT /settings`). -/
def isUpdateSettingsOp : Op → Bool
  | .updateSettings _ _ => true
  | _ => false

/-- The tenant whose settings record the operation get-or-creates. -/
def opTenantUse : Op → Option String
  | .create u _ => some u
  | .getSettings u => some u
  | .updateSettings u _ => some u
  | _ => none

theorem countP_incSettings (u t : String) (l : List Settings) :
    List.countP (fun s => s.user_id == t) (incSettings u l) =
      List.countP (fun s => s.user_id == t) l := by
  unfold incSettings
  refine countP_updateFirst _ _ _ ?_ l
  intro x
  rfl

theorem countP_settings_payload (p : SettingsUpdate)
    (hp : p.user_id = none) (u t : String) (l : List Settings) :
    List.countP (fun s => s.user_id == t)
      (updateFirst (fun s => s.user_id == u) (applySettingsPayload p) l) =
      List.countP (fun s => s.user_id == t) l := by
  refine countP_updateFirst _ _ _ ?_ l
  intro x
  simp [applySettingsPayload, hp]

theorem countP_eq_zero_of_find?_none {p : Settings → Bool} {l : List Settings}
    (h : List.find? p l = none) : List.countP p l = 0 := by
  rw [List.countP_eq_zero]
  intro a ha
  exact (List.find?_eq_none.mp h) a ha

theorem countP_pos_of_find?_some {p : Settings → Bool} {l : List Settings}
    {s : Settings} (h : List.find? p l = some s) : 1 ≤ List.countP p l := by
  have hpos : 0 < List.countP p l :=
    List.countP_pos.mpr ⟨s, List.mem_of_find?_eq_some h, List.find?_some h⟩
  omega

theorem update_invoice_settings (db : DB) (u iid : String) (d : InvoiceCreate) :
    (update_invoice db u iid d).2.settings = db.settings := by
  unfold update_invoice
  split
  · rfl
  · dsimp only
    split <;> rfl

theorem delete_invoice_settings (db : DB) (u iid : String) :
    (delete_invoice db u iid).2.settings = db.settings := by
  unfold delete_invoice
  split <;> rfl

theorem convert_settings_cases (db : DB) (u iid : String) :
    (convert_quotation_to_invoice db u iid).2.settings = db.settings ∨
    ((convert_quotation_to_invoice db u iid).2.settings =
        incSettings u db.settings ∧ (lookupSettings db u).isSome) := by
  unfold convert_quotation_to_invoice
  split
  · exact Or.inl rfl
  · split
    · exact Or.inl rfl
    · rename_i sdoc heq
      dsimp only
      split <;> exact Or.inr ⟨rfl, by rw [heq]; rfl⟩

theorem get_settings_settings_cases (db : DB) (u : String) :
    ((get_settings db u).2.settings = db.settings ∧
      (lookupSettings db u).isSome) ∨
    ((get_settings db u).2.settings =
        db.settings ++ [defaultSettings u db.fresh] ∧
      lookupSettings db u = none) := by
  unfold get_settings
  split
  · rename_i s heq
    exact Or.inl ⟨rfl, by rw [heq]; rfl⟩
  · rename_i heq
    exact Or.inr ⟨rfl, heq⟩

theorem update_settings_settings_cases (db : DB) (u : String)
    (p : SettingsUpdate) :
    ((update_settings db u p).settings =
        updateFirst (fun s => s.user_id == u) (applySettingsPayload p)
          db.settings ∧ (lookupSettings db u).isSome) ∨
    ((update_settings db u p).settings =
        db.settings ++ [applySettingsPayload p (defaultSettings u db.fresh)] ∧
      lookupSettings db u = none) := by
  unfold update_settings
  split
  · rename_i s heq
    exact Or.inl ⟨rfl, by rw [heq]; rfl⟩
  · rename_i heq
    exact Or.inr ⟨rfl, heq⟩

theorem counterOf_eq_of_settings (db dbx : DB)
    (h : dbx.settings = db.settings) (t : String) :
    counterOf dbx t = counterOf db t := by
  unfold counterOf lookupSettings
  rw [h]

theorem counterOf_le_incSettings (db dbx : DB) (u : String)
    (h : dbx.settings = incSettings u db.settings) (t : String) :
    counterOf db t ≤ counterOf dbx t := by
  unfold counterOf lookupSettings
  rw [h]
  by_cases ht : u = t
  · subst ht
    rw [find?_incSettings_self]
    cases hf : List.find? (fun s => s.user_id == u) db.settings
    · simp
    · simp only [Option.map_some']
      omega
  · rw [find?_incSettings_other u t ht]

theorem settingsCount_append_one (l : List Settings) (s : Settings) (t : String) :
    List.countP (fun x => x.user_id == t) (l ++ [s]) =
      List.countP (fun x => x.user_id == t) l +
        (if s.user_id == t then 1 else 0) := by
  simp [List.countP_append, List.countP_cons]

/-- A store where tenants T and V each hold one settings record. -/
def dbC6 : DB :=
  { settings := [{ id := "uuid-t", user_id := "T" },
                 { id := "uuid-v", user_id := "V" }] }

/-- Counterexample to C6, on both halves of the claim.  Counter: tenant
T creates an invoice (counter becomes 2), then a settings update whose
payload carries `invoice_counter = 0` is `$set` verbatim and the counter
drops to 0.  Uniqueness: with T and V each owning one settings record, a
settings update for T whose payload carries `user_id = "V"` reassigns
T's record to V — T is left with no settings record and V with two. -/
theorem counter_decrease_cex :
    counterOf (create_invoice dbC1 "T" samplePayload).2 "T" = 2 ∧
    counterOf (applyOp (create_invoice dbC1 "T" samplePayload).2
      (Op.updateSettings "T" { invoice_counter := some 0 })) "T" = 0 ∧
    settingsCount dbC6 "T" = 1 ∧
    settingsCount dbC6 "V" = 1 ∧
    settingsCount (applyOp dbC6
      (Op.updateSettings "T" { user_id := some "V" })) "T" = 0 ∧
    settingsCount (applyOp dbC6
      (Op.updateSettings "T" { user_id := some "V" })) "V" = 2 := by
  decide

theorem atMostOne_of_settings_eq (db dbx : DB) (h : SettingsAtMostOne db)
    (heq : dbx.settings = db.settings) : SettingsAtMostOne dbx := by
  intro t
  unfold settingsCount
  rw [heq]
  exact h t

theorem atMostOne_of_settings_inc (db dbx : DB) (u : String)
    (h : SettingsAtMostOne db)
    (heq : dbx.settings = incSettings u db.settings) : SettingsAtMostOne dbx := by
  intro t
  unfold settingsCount
  rw [heq, countP_incSettings]
  exact h t

theorem atMostOne_of_settings_append (db dbx : DB) (u : String) (s : Settings)
    (h : SettingsAtMostOne db) (hu : s.user_id = u)
    (hnone : lookupSettings db u = none)
    (heq : dbx.settings = db.settings ++ [s]) : SettingsAtMostOne dbx := by
  intro t
  unfold settingsCount
  rw [heq, settingsCount_append_one]
  by_cases ht : u = t
  · subst ht
    have h0 : List.countP (fun x => x.user_id == u) db.settings = 0 :=
      countP_eq_zero_of_find?_none hnone
    rw [h0, hu]
    simp
  · have hf : (s.user_id == t) = false := by simp [hu, ht]
    rw [hf]
    simpa using h t

theorem settingsCount_eq_one_of_present (db : DB) (u : String)
    (h : SettingsAtMostOne db) (hp : (lookupSettings db u).isSome) :
    settingsCount db u = 1 := by
  obtain ⟨s, hs⟩ := Option.isSome_iff_exists.mp hp
  have h1 : 1 ≤ settingsCount db u := by
    unfold settingsCount
    exact countP_pos_of_find?_some hs
  have h2 := h u
  omega

theorem settingsCount_append_self_eq_one (db dbx : DB) (u : String)
    (s : Settings) (hu : s.user_id = u) (hnone : lookupSettings db u = none)
    (heq : dbx.settings = db.settings ++ [s]) : settingsCount dbx u = 1 := by
  unfold settingsCount
  rw [heq, settingsCount_append_one]
  have h0 : List.countP (fun x => x.user_id == u) db.settings = 0 :=
    countP_eq_zero_of_find?_none hnone
  rw [h0, hu]
  simp

/-- C6 (amended): under every exposed operation other than
`update_settings`, each tenant keeps at most one settings record and the
`invoice_counter` never decreases, with the count exactly one after an
operation that get-or-creates the tenant's settings; `update_settings`,
however, `$set`s the raw payload verbatim — a payload carrying
`invoice_counter` can lower the counter, and one carrying `user_id`
reassigns the record to another tenant (see the counterexample) — and it
preserves at-most-one, leaving exactly one record for the tenant, only
when its payload carries no `user_id` key. -/
theorem settings_unique_counter_monotone (db : DB) (op : Op)
    (h : SettingsAtMostOne db) :
    (isUpdateSettingsOp op = false →
      SettingsAtMostOne (applyOp db op) ∧
      (∀ t, counterOf db t ≤ counterOf (applyOp db op) t) ∧
      (∀ u, opTenantUse op = some u → settingsCount (applyOp db op) u = 1)) ∧
    (∀ u p, op = Op.updateSettings u p → p.user_id = none →
      SettingsAtMostOne (applyOp db op) ∧
      settingsCount (applyOp db op) u = 1) := by
  cases op with
  | create u d =>
    simp only [applyOp]
    have hsett := create_invoice_settings db u d
    refine ⟨fun _ => ⟨?_, ?_, ?_⟩, ?_⟩
    · cases hl : lookupSettings db u with
      | some s =>
        rw [hl] at hsett
        exact atMostOne_of_settings_inc db _ u h hsett
      | none =>
        rw [hl] at hsett
        have hmid : SettingsAtMostOne
            { db with settings := db.settings ++ [defaultSettings u db.fresh] } :=
          atMostOne_of_settings_append db _ u _ h (by simp [defaultSettings])
            hl rfl
        exact atMostOne_of_settings_inc _ _ u hmid hsett
    · intro t
      by_cases ht : u = t
      · subst ht
        rw [counterOf_create_self]
        omega
      · rw [counterOf_create_other db u d t ht]
    · intro v hv
      simp only [opTenantUse, Option.some.injEq] at hv
      subst hv
      cases hl : lookupSettings db u with
      | some s =>
        rw [hl] at hsett
        have h1 := settingsCount_eq_one_of_present db u h (by rw [hl]; rfl)
        unfold settingsCount at h1 ⊢
        rw [hsett, countP_incSettings]
        exact h1
      | none =>
        rw [hl] at hsett
        unfold settingsCount
        rw [hsett, countP_incSettings, settingsCount_append_one,
          countP_eq_zero_of_find?_none hl]
        simp [defaultSettings]
    · intro v pv hvp
      simp at hvp
  | update u iid d =>
    simp only [applyOp]
    refine ⟨fun _ =>
      ⟨atMostOne_of_settings_eq db _ h (update_invoice_settings db u iid d),
        ?_, ?_⟩, ?_⟩
    · intro t
      exact le_of_eq
        (counterOf_eq_of_settings db _ (update_invoice_settings db u iid d) t).symm
    · intro v hv
      simp [opTenantUse] at hv
    · intro v pv hvp
      simp at hvp
  | delete u iid =>
    simp only [applyOp]
    refine ⟨fun _ =>
      ⟨atMostOne_of_settings_eq db _ h (delete_invoice_settings db u iid),
        ?_, ?_⟩, ?_⟩
    · intro t
      exact le_of_eq
        (counterOf_eq_of_settings db _ (delete_invoice_settings db u iid) t).symm
    · intro v hv
      simp [opTenantUse] at hv
    · intro v pv hvp
      simp at hvp
  | convert u iid =>
    simp only [applyOp]
    rcases convert_settings_cases db u iid with heq | ⟨heq, _⟩
    · refine ⟨fun _ => ⟨atMostOne_of_settings_eq db _ h heq, ?_, ?_⟩, ?_⟩
      · intro t
        exact le_of_eq (counterOf_eq_of_settings db _ heq t).symm
      · intro v hv
        simp [opTenantUse] at hv
      · intro v pv hvp
        simp at hvp
    · refine ⟨fun _ => ⟨atMostOne_of_settings_inc db _ u h heq, ?_, ?_⟩, ?_⟩
      · intro t
        exact counterOf_le_incSettings db _ u heq t
      · intro v hv
        simp [opTenantUse] at hv
      · intro v pv hvp
        simp at hvp
  | getSettings u =>
    simp only [applyOp]
    rcases get_settings_settings_cases db u with ⟨heq, hp⟩ | ⟨heq, hnone⟩
    · refine ⟨fun _ => ⟨atMostOne_of_settings_eq db _ h heq, ?_, ?_⟩, ?_⟩
      · intro t
        exact le_of_eq (counterOf_eq_of_settings db _ heq t).symm
      · intro v hv
        simp only [opTenantUse, Option.some.injEq] at hv
        subst hv
        have h1 := settingsCount_eq_one_of_present db u h hp
        unfold settingsCount at h1 ⊢
        rw [heq]
        exact h1
      · intro v pv hvp
        simp at hvp
    · refine ⟨fun _ => ⟨atMostOne_of_settings_append db _ u _ h
        (by simp [defaultSettings]) hnone heq, ?_, ?_⟩, ?_⟩
      · intro t
        unfold counterOf lookupSettings
        rw [heq]
        by_cases ht : u = t
        · subst ht
          unfold lookupSettings at hnone
          rw [List.find?_append, hnone]
          simp [defaultSettings]
        · rw [find?_settings_append_notmatch t db.settings _
            (by simp [defaultSettings, ht])]
      · intro v hv
        simp only [opTenantUse, Option.some.injEq] at hv
        subst hv
        exact settingsCount_append_self_eq_one db _ u _
          (by simp [defaultSettings]) hnone heq
      · intro v pv hvp
        simp at hvp
  | updateSettings u p =>
    simp only [applyOp]
    refine ⟨?_, ?_⟩
    · intro hfalse
      simp [isUpdateSettingsOp] at hfalse
    · intro v pv hvp huid
      injection hvp with h1 h2
      subst h1
      subst h2
      rcases update_settings_settings_cases db u p with ⟨heq, hp⟩ | ⟨heq, hnone⟩
      · constructor
        · intro t
          unfold settingsCount
          rw [heq, countP_settings_payload p huid]
          exact h t
        · have h1 := settingsCount_eq_one_of_present db u h hp
          unfold settingsCount at h1 ⊢
          rw [heq, countP_settings_payload p huid]
          exact h1
      · constructor
        · exact atMostOne_of_settings_append db _ u _ h
            (by simp [applySettingsPayload, defaultSettings, huid]) hnone heq
        · exact settingsCount_append_self_eq_one db _ u _
            (by simp [applySettingsPayload, defaultSettings, huid]) hnone heq

/-- A settings payload carrying only a new number prefix — in
particular no `user_id` key. -/
def prefixOnlyPayload : SettingsUpdate := { invoice_prefix := some "Q" }

/-- Witness for the amended C6: a creation step and a `user_id`-free
settings update from the store holding T's default settings record. -/
theorem settings_unique_counter_monotone_witness :
    (SettingsAtMostOne (applyOp dbC1 (Op.create "T" samplePayload)) ∧
      (∀ t, counterOf dbC1 t ≤
        counterOf (applyOp dbC1 (Op.create "T" samplePayload)) t) ∧
      (∀ u, opTenantUse (Op.create "T" samplePayload) = some u →
        settingsCount (applyOp dbC1 (Op.create "T" samplePayload)) u = 1)) ∧
    (SettingsAtMostOne
        (applyOp dbC1 (Op.updateSettings "T" prefixOnlyPayload)) ∧
      settingsCount
        (applyOp dbC1 (Op.updateSettings "T" prefixOnlyPayload)) "T" = 1) := by
  have hAMO : SettingsAtMostOne dbC1 := by
    intro t
    simp only [settingsCount, dbC1, List.countP_cons, List.countP_nil]
    split <;> omega
  exact ⟨(settings_unique_counter_monotone dbC1
      (Op.create "T" samplePayload) hAMO).1 rfl,
    (settings_unique_counter_monotone dbC1
      (Op.updateSettings "T" prefixOnlyPayload) hAMO).2 "T"
      prefixOnlyPayload rfl rfl⟩

/-! ### Tenant isolation (C8) -/

theorem update_invoice_invoices_cases (db : DB) (u iid : String)
    (d : InvoiceCreate) :
    (update_invoice db u iid d).2.invoices = db.invoices ∨
    (update_invoice db u iid d).2.invoices =
      updateFirst (fun i => i.id == iid && i.user_id == u)
        (applyInvoicePayload d) db.invoices := by
  unfold update_invoice
  split
  · exact Or.inl rfl
  · dsimp only
    split <;> exact Or.inr rfl

theorem delete_invoice_invoices_cases (db : DB) (u iid : String) :
    (delete_invoice db u iid).2.invoices = db.invoices ∨
    ∃ l, removeFirst (fun i => i.id == iid && i.user_id == u) db.invoices =
        some l ∧ (delete_invoice db u iid).2.invoices = l := by
  unfold delete_invoice
  split
  · exact Or.inl rfl
  · rename_i l heq
    exact Or.inr ⟨l, heq, rfl⟩

theorem convert_invoices_cases (db : DB) (u iid : String) :
    (convert_quotation_to_invoice db u iid).2.invoices = db.invoices ∨
    ∃ q sdoc, findQuotation db u iid = some q ∧
      lookupSettings db u = some sdoc ∧
      (convert_quotation_to_invoice db u iid).2.invoices =
        updateFirst (fun i => i.id == iid)
          (fun i => { i with invoice_type := "invoice",
                             invoice_number := mintNumber sdoc })
          db.invoices := by
  unfold convert_quotation_to_invoice
  split
  · exact Or.inl rfl
  · rename_i q hq
    split
    · exact Or.inl rfl
    · rename_i sdoc hs
      dsimp only
      split <;> exact Or.inr ⟨q, sdoc, hq, hs, rfl⟩

/-- C8: tenant isolation.  For tenants A ≠ B, every read, list, update
or conversion invoked as B returns only records owned by B (so never one
of A's, even given A's exact invoice id), and no B-scoped operation —
creation, update, deletion or conversion — changes A's invoices or A's
settings record. -/
theorem tenant_isolation (db : DB) (A B iid : String) (d : InvoiceCreate)
    (hAB : A ≠ B) (hids : (db.invoices.map Invoice.id).Nodup) :
    (∀ inv ∈ get_invoices db B, inv.user_id = B) ∧
    (∀ r, get_invoice db B iid = .ok r → r.user_id = B) ∧
    (∀ r, (update_invoice db B iid d).1 = .ok r → r.user_id = B) ∧
    (∀ r, (convert_quotation_to_invoice db B iid).1 = .ok r →
      r.user_id = B) ∧
    ((create_invoice db B d).2.invoices.filter (fun i => i.user_id == A) =
      db.invoices.filter (fun i => i.user_id == A)) ∧
    ((update_invoice db B iid d).2.invoices.filter (fun i => i.user_id == A) =
      db.invoices.filter (fun i => i.user_id == A)) ∧
    ((delete_invoice db B iid).2.invoices.filter (fun i => i.user_id == A) =
      db.invoices.filter (fun i => i.user_id == A)) ∧
    ((convert_quotation_to_invoice db B iid).2.invoices.filter
        (fun i => i.user_id == A) =
      db.invoices.filter (fun i => i.user_id == A)) ∧
    (lookupSettings (create_invoice db B d).2 A = lookupSettings db A) ∧
    ((update_invoice db B iid d).2.settings = db.settings) ∧
    ((delete_invoice db B iid).2.settings = db.settings) ∧
    (lookupSettings (convert_quotation_to_invoice db B iid).2 A =
      lookupSettings db A) := by
  have hBA : B ≠ A := Ne.symm hAB
  refine ⟨?_, ?_, ?_, ?_, ?_, ?_, ?_, ?_, ?_,
    update_invoice_settings db B iid d, delete_invoice_settings db B iid, ?_⟩
  · intro inv hinv
    have hmem := List.mem_of_mem_take hinv
    have hf := List.mem_filter.mp hmem
    simpa using hf.2
  · intro r hr
    unfold get_invoice at hr
    cases hfi : findInvoice db B iid with
    | none => rw [hfi] at hr; simp at hr
    | some i =>
      rw [hfi] at hr
      rw [Except.ok.injEq] at hr
      subst hr
      have hp := List.find?_some hfi
      simp only [Bool.and_eq_true, beq_iff_eq] at hp
      exact hp.2
  · intro r hr
    cases hpre : findInvoice db B iid with
    | none =>
      rw [update_eq_of_none db B iid d hpre] at hr
      simp at hr
    | some pre =>
      obtain ⟨_, _, _, _, hres, _, _, _⟩ :=
        update_ok_characterization db B iid d hids hpre
      rw [hres, Except.ok.injEq] at hr
      subst hr
      have hp := List.find?_some hpre
      simp only [Bool.and_eq_true, beq_iff_eq] at hp
      exact hp.2
  · intro r hr
    cases hq : findQuotation db B iid with
    | none =>
      rw [convert_eq_of_quotation_none db B iid hq] at hr
      simp at hr
    | some q =>
      cases hs : lookupSettings db B with
      | none =>
        have herr : (convert_quotation_to_invoice db B iid).1 =
            .error .internalError := by
          simp [convert_quotation_to_invoice, hq, hs]
        rw [herr] at hr
        simp at hr
      | some sdoc =>
        obtain ⟨_, _, _, _, hres, _, _⟩ :=
          convert_ok_characterization db B iid hids hq hs
        rw [hres, Except.ok.injEq] at hr
        subst hr
        have hp := List.find?_some hq
        simp only [Bool.and_eq_true, beq_iff_eq] at hp
        exact hp.1.2
  · rw [create_invoice_invoices, List.filter_append]
    have huser : ((create_invoice db B d).1.user_id == A) = false := by
      rw [create_invoice_user]
      simp [hBA]
    simp [huser]
  · rcases update_invoice_invoices_cases db B iid d with heq | heq
    · rw [heq]
    · rw [heq]
      apply filter_updateFirst_other
      intro x _ hx
      simp only [Bool.and_eq_true, beq_iff_eq] at hx
      constructor
      · simp [hx.2, hBA]
      · simp [applyInvoicePayload, hx.2, hBA]
  · rcases delete_invoice_invoices_cases db B iid with heq | ⟨l, hrem, heq⟩
    · rw [heq]
    · rw [heq]
      apply filter_removeFirst _ _ db.invoices l hrem
      intro x _ hx
      simp only [Bool.and_eq_true, beq_iff_eq] at hx
      simp [hx.2, hBA]
  · rcases convert_invoices_cases db B iid with heq | ⟨q, sdoc, hq, hs, heq⟩
    · rw [heq]
    · rw [heq]
      have hqmem : q ∈ db.invoices := List.mem_of_find?_eq_some hq
      have hp := List.find?_some hq
      simp only [Bool.and_eq_true, beq_iff_eq] at hp
      apply filter_updateFirst_other
      intro x hxmem hx
      simp only [beq_iff_eq] at hx
      have hxq : x = q := List.inj_on_of_nodup_map hids hxmem hqmem
        (by rw [hx, hp.1.1])
      subst hxq
      constructor
      · simp [hp.1.2, hBA]
      · simp [hp.1.2, hBA]
  · exact lookupSettings_create_other db B d A hBA
  · rcases convert_settings_cases db B iid with heq | ⟨heq, _⟩
    · unfold lookupSettings
      rw [heq]
    · unfold lookupSettings
      rw [heq]
      exact find?_incSettings_other B A hBA db.settings

/-- Witness for C8 at a concrete store. -/
theorem tenant_isolation_witness :
    (∀ inv ∈ get_invoices dbC4 "T", inv.user_id = "T") ∧
    (∀ r, get_invoice dbC4 "T" "q1" = .ok r → r.user_id = "T") ∧
    (∀ r, (update_invoice dbC4 "T" "q1" updatePayload).1 = .ok r →
      r.user_id = "T") ∧
    (∀ r, (convert_quotation_to_invoice dbC4 "T" "q1").1 = .ok r →
      r.user_id = "T") ∧
    ((create_invoice dbC4 "T" updatePayload).2.invoices.filter
        (fun i => i.user_id == "A") =
      dbC4.invoices.filter (fun i => i.user_id == "A")) ∧
    ((update_invoice dbC4 "T" "q1" updatePayload).2.invoices.filter
        (fun i => i.user_id == "A") =
      dbC4.invoices.filter (fun i => i.user_id == "A")) ∧
    ((delete_invoice dbC4 "T" "q1").2.invoices.filter
        (fun i => i.user_id == "A") =
      dbC4.invoices.filter (fun i => i.user_id == "A")) ∧
    ((convert_quotation_to_invoice dbC4 "T" "q1").2.invoices.filter
        (fun i => i.user_id == "A") =
      dbC4.invoices.filter (fun i => i.user_id == "A")) ∧
    (lookupSettings (create_invoice dbC4 "T" updatePayload).2 "A" =
      lookupSettings dbC4 "A") ∧
    ((update_invoice dbC4 "T" "q1" updatePayload).2.settings =
      dbC4.settings) ∧
    ((delete_invoice dbC4 "T" "q1").2.settings = dbC4.settings) ∧
    (lookupSettings (convert_quotation_to_invoice dbC4 "T" "q1").2 "A" =
      lookupSettings dbC4 "A") :=
  tenant_isolation dbC4 "A" "T" "q1" updatePayload (by decide) (by decide)

/-! ### The 1000-record truncation (C10) -/

/-- C10: every list endpoint and the dashboard aggregation read at most
the first 1000 matching records per tenant.  For a tenant with more than
1000 invoices (resp. expenses) the listings return exactly 1000 records,
strictly fewer than exist; the dashboard's `invoice_count` is 1000; and
the dashboard result is unchanged by any modification of the store that
keeps the first 1000 matching invoices, the first 1000 matching expenses
and the tenant's clients the same — its totals are computed from at most
1000 records of each kind. -/
theorem listing_and_dashboard_truncate (db dbx : DB) (t : String)
    (hinv : 1000 < (db.invoices.filter (fun i => i.user_id == t)).length)
    (hexp : 1000 < (db.expenses.filter (fun e => e.user_id == t)).length)
    (hi : (dbx.invoices.filter (fun i => i.user_id == t)).take 1000 =
      (db.invoices.filter (fun i => i.user_id == t)).take 1000)
    (he : (dbx.expenses.filter (fun e => e.user_id == t)).take 1000 =
      (db.expenses.filter (fun e => e.user_id == t)).take 1000)
    (hc : dbx.clients.filter (fun c => c.user_id == t) =
      db.clients.filter (fun c => c.user_id == t)) :
    (get_invoices db t).length = 1000 ∧
    (get_invoices db t).length <
      (db.invoices.filter (fun i => i.user_id == t)).length ∧
    (get_expenses db t).length = 1000 ∧
    (get_expenses db t).length <
      (db.expenses.filter (fun e => e.user_id == t)).length ∧
    (get_dashboard_stats db t).invoice_count = 1000 ∧
    get_dashboard_stats dbx t = get_dashboard_stats db t := by
  have h1 : (get_invoices db t).length = 1000 := by
    unfold get_invoices
    rw [List.length_take]
    omega
  have h2 : (get_expenses db t).length = 1000 := by
    unfold get_expenses
    rw [List.length_take]
    omega
  refine ⟨h1, by rw [h1]; exact hinv, h2, by rw [h2]; exact hexp, ?_, ?_⟩
  · simp only [get_dashboard_stats]
    rw [List.length_take]
    omega
  · simp only [get_dashboard_stats]
    rw [hi, he, hc]

/-- A tenant-T invoice with a distinct id per index. -/
def mkInvT (k : Nat) : Invoice :=
  { id := "i" ++ toString k, invoice_number := "INV-X", client_id := "c",
    invoice_date := "d", due_date := "d", items := [], subtotal := 0,
    cgst := 0, sgst := 0, igst := 0, total := 1, status := "paid",
    invoice_type := "invoice", is_recurring := false, notes := none,
    created_at := "ts", user_id := "T" }

/-- A tenant-T expense with a distinct id per index. -/
def mkExpT (k : Nat) : Expense :=
  { id := "e" ++ toString k, date := "d", description := "x", amount := 1,
    category := "c", created_at := "ts", user_id := "T" }

/-- A store where tenant T owns 1001 invoices and 1001 expenses. -/
def dbBig : DB :=
  { invoices := (List.range 1001).map mkInvT,
    expenses := (List.range 1001).map mkExpT }

set_option maxRecDepth 8000 in
/-- Witness for C10 at the 1001-record store. -/
theorem listing_and_dashboard_truncate_witness :
    (get_invoices dbBig "T").length = 1000 ∧
    (get_invoices dbBig "T").length <
      (dbBig.invoices.filter (fun i => i.user_id == "T")).length ∧
    (get_expenses dbBig "T").length = 1000 ∧
    (get_expenses dbBig "T").length <
      (dbBig.expenses.filter (fun e => e.user_id == "T")).length ∧
    (get_dashboard_stats dbBig "T").invoice_count = 1000 ∧
    get_dashboard_stats dbBig "T" = get_dashboard_stats dbBig "T" := by
  have hfi : dbBig.invoices.filter (fun i => i.user_id == "T") =
      dbBig.invoices := by
    rw [List.filter_eq_self]
    intro a ha
    rcases List.mem_map.mp ha with ⟨k, _, rfl⟩
    rfl
  have hfe : dbBig.expenses.filter (fun e => e.user_id == "T") =
      dbBig.expenses := by
    rw [List.filter_eq_self]
    intro a ha
    rcases List.mem_map.mp ha with ⟨k, _, rfl⟩
    rfl
  have hinv : 1000 < (dbBig.invoices.filter (fun i => i.user_id == "T")).length := by
    rw [hfi]
    simp [dbBig]
  have hexp : 1000 < (dbBig.expenses.filter (fun e => e.user_id == "T")).length := by
    rw [hfe]
    simp [dbBig]
  exact listing_and_dashboard_truncate dbBig dbBig "T" hinv hexp rfl rfl rfl
